import Mathlib

/-!
Verification of the go-hep `rootio`/`rtree` components against their
natural-language specification.

The `Rootio` namespace embeds `Basket.UnmarshalROOT` (package `rootio`)
directly from the source.  The embedded `Key` decoder and the binary
decoder (`newDecoder`/`readBin`/`readInt32`) are not part of the sources
at hand: the `Key` decoder is abstracted as a parameter (only its class
name and error are consulted), and the binary decoder is modelled from the
specification of the big-endian binary cursor.

The `Rtree` namespace models the entry reader (`NewReader`, `Reader.Read`,
`Reader.Close`) and the reflection binder (`ReadVarsFromStruct`) of
package `rtree`, whose implementation sources are not at hand; the models
follow the specification's description of the reader state machine and
binder, with the concrete error-message shapes taken from the package's
own test expectations.
-/

set_option autoImplicit false

namespace Rootio

/-- Modelled from the spec: the `Key` header record.  `Basket.UnmarshalROOT`
consults only the decoded class name (`b.Class()`), so only that field is
carried. -/
structure Key where
  className : String
  deriving DecidableEq, Repr

/-- The `Basket` struct of `rootio`: an embedded `Key` plus the basket
header fields (`Version uint16`, `Buffersize int32`, `Evbuffersize int32`,
`Nevbuf int32`, `Last int32`, `Flag byte`).  Machine integers are carried
as `Nat`/`Int`; the decoder produces values in the right ranges. -/
structure Basket where
  key : Key
  Version : Nat
  Buffersize : Int
  Evbuffersize : Int
  Nevbuf : Int
  Last : Int
  Flag : Nat
  deriving DecidableEq, Repr

/-- Modelled from the spec: the binary cursor state — the remaining bytes
of the buffer plus a sticky error, as in the `decoder` wrapped around a
`bytes.Buffer` by `newDecoder`. -/
structure Decoder where
  data : List Nat
  err : Option String
  deriving DecidableEq, Repr

/-- Big-endian assembly of a byte list into an unsigned value. -/
def beNat (bs : List Nat) : Nat :=
  bs.foldl (fun acc b => acc * 256 + b) 0

/-- Reinterpret an unsigned 32-bit value as a two's-complement `int32`. -/
def toInt32 (u : Nat) : Int :=
  if u < 2 ^ 31 then (u : Int) else (u : Int) - 2 ^ 32

/-- Modelled from the spec: consume `n` bytes from the cursor.  A read
after an error is a no-op; a short buffer sets the sticky error and
yields no bytes (the destination of the read keeps its previous value). -/
def Decoder.readBytes (d : Decoder) (n : Nat) : Decoder × Option (List Nat) :=
  match d.err with
  | some _ => (d, none)
  | none =>
    if n ≤ d.data.length then
      ({ d with data := d.data.drop n }, some (d.data.take n))
    else
      ({ d with err := some "rootio.decoder: short buffer" }, none)

/-- Modelled from the spec: `readBin` into a `uint16` destination holding
`old`; on failure the destination keeps `old`. -/
def Decoder.readU16 (d : Decoder) (old : Nat) : Decoder × Nat :=
  match d.readBytes 2 with
  | (d', some bs) => (d', beNat bs)
  | (d', none) => (d', old)

/-- Modelled from the spec: `readInt32` into an `int32` destination holding
`old`; on failure the destination keeps `old`. -/
def Decoder.readInt32 (d : Decoder) (old : Int) : Decoder × Int :=
  match d.readBytes 4 with
  | (d', some bs) => (d', toInt32 (beNat bs))
  | (d', none) => (d', old)

/-- Modelled from the spec: `readBin` into a `byte` destination holding
`old`; on failure the destination keeps `old`. -/
def Decoder.readU8 (d : Decoder) (old : Nat) : Decoder × Nat :=
  match d.readBytes 1 with
  | (d', some bs) => (d', beNat bs)
  | (d', none) => (d', old)

/-- The result type of an in-place unmarshal: the updated receiver plus
the returned error (`none` on success). -/
abbrev UnmarshalResult (α : Type) := α × Option String

/-- A `Key.UnmarshalROOT` behaviour: given the receiver key and the
buffer, it returns the updated key, the remaining (unconsumed) bytes of
the buffer, and the returned error.  `Basket.unmarshalROOT` is stated for
every such behaviour, since the `Key` decoder is external to the sources
at hand. -/
abbrev KeyUnmarshal := Key → List Nat → (Key × List Nat) × Option String

/-- `Basket.UnmarshalROOT` from the source: decode the embedded `Key`
(propagating its error), reject a class name other than `"TBasket"`,
then decode `Version`, `Buffersize`, `Evbuffersize` (rejecting a negative
value, zeroing the field), `Nevbuf`, `Last` and `Flag`, raise `Buffersize`
to `Last` when `Last > Buffersize`, and return the decoder's sticky
error. -/
def Basket.unmarshalROOT (keyUnmarshal : KeyUnmarshal) (b : Basket)
    (data : List Nat) : UnmarshalResult Basket :=
  match keyUnmarshal b.key data with
  | ((k, _), some e) => ({ b with key := k }, some e)
  | ((k, rest), none) =>
    let b := { b with key := k }
    if k.className ≠ "TBasket" then
      (b, some "rootio.Basket: Key is not a Basket")
    else
      let dec : Decoder := { data := rest, err := none }
      let s1 := dec.readU16 b.Version
      let b := { b with Version := s1.2 }
      let s2 := s1.1.readInt32 b.Buffersize
      let b := { b with Buffersize := s2.2 }
      let s3 := s2.1.readInt32 b.Evbuffersize
      let b := { b with Evbuffersize := s3.2 }
      if b.Evbuffersize < (0 : Int) then
        ({ b with Evbuffersize := 0 },
         some ("rootio.Basket: incorrect Evbuffersize [" ++
               ToString.toString b.Evbuffersize ++ "]"))
      else
        let s4 := s3.1.readInt32 b.Nevbuf
        let b := { b with Nevbuf := s4.2 }
        let s5 := s4.1.readInt32 b.Last
        let b := { b with Last := s5.2 }
        let s6 := s5.1.readU8 b.Flag
        let b := { b with Flag := s6.2 }
        let b := if b.Last > b.Buffersize then { b with Buffersize := b.Last } else b
        (b, s6.1.err)

end Rootio

namespace Rtree

/-- Modelled from the spec: the tree metadata the reader consults — its
name, its entry count (`int64`), and the names of its branches — plus the
uninterpreted basket payloads, which construction must never touch. -/
structure Tree where
  name : String
  entries : Int
  branches : List String
  baskets : List (List Nat)
  deriving DecidableEq, Repr

/-- Modelled from the spec: a read variable binds a leaf name to a
destination; `leaf` and `count` are the resolved leaf name and the
optional counting-leaf name. -/
structure ReadVar where
  name : String
  leaf : String := ""
  count : String := ""
  deriving DecidableEq, Repr

/-- Modelled from the spec: the reader session state — the validated
entry range `[beg, endv)`, the bound read variables, whether the session
has been closed, and the result releasing the underlying resources would
report (`none` when releasing succeeds). -/
structure Reader where
  beg : Int
  endv : Int
  rvars : List ReadVar
  closed : Bool
  releaseErr : Option String
  deriving DecidableEq, Repr

/-- A `ReadOption` mutates the reader under construction and may fail. -/
abbrev ReadOption := Reader → Except String Reader

/-- Modelled from the spec: `WithRange(beg, end)` restricts the scan to
that entry interval and never fails itself. -/
def withRange (beg endv : Int) : ReadOption :=
  fun r => .ok { r with beg := beg, endv := endv }

/-- Modelled from the spec: apply the option functions in order, `i` being
the number reported for the head option should it fail; a failing option
aborts construction with its error, numbered by its position in the
option list.  The package's tests pin the numbering: an option list whose
second member fails reports `option 1`, so the reported number is the
0-based position of the failing option. -/
def applyOptions : Nat → Reader → List ReadOption → Except String Reader
  | _, r, [] => .ok r
  | i, r, o :: os =>
    match o r with
    | .error e =>
      .error ("rtree: could not set reader option " ++ ToString.toString i ++ ": " ++ e)
    | .ok r' => applyOptions (i + 1) r' os

/-- The shared shape of the four range-error messages. -/
def rangeMsg (beg endv : Int) (tail : String) : String :=
  "rtree: invalid event reader range [" ++ ToString.toString beg ++ ", " ++
    ToString.toString endv ++ ") (" ++ tail ++ ")"

/-- Modelled from the spec: the resolved exclusive upper bound of the
scan; `endv = -1` means "through the last entry". -/
def resolveEnd (entries endv : Int) : Int :=
  if endv = -1 then entries else endv

/-- Modelled from the spec: validate the entry range against the tree's
entry count.  After resolving `endv = -1`, the violations `beg < 0`,
`beg > end`, `beg > entries` and `end > entries` are rejected in that
order, each with a message naming the offending bound and value.  On
success the resolved exclusive upper bound is returned. -/
def checkRange (entries beg endv : Int) : Except String Int :=
  let e := resolveEnd entries endv
  if beg < 0 then
    .error (rangeMsg beg e ("start=" ++ ToString.toString beg ++ " < 0"))
  else if beg > e then
    .error (rangeMsg beg e ("start=" ++ ToString.toString beg ++ " > end=" ++ ToString.toString e))
  else if beg > entries then
    .error (rangeMsg beg e
      ("start=" ++ ToString.toString beg ++ " > tree-entries=" ++ ToString.toString entries))
  else if e > entries then
    .error (rangeMsg beg e
      ("end=" ++ ToString.toString e ++ " > tree-entries=" ++ ToString.toString entries))
  else
    .ok e

/-- Modelled from the spec: resolve each read variable against the tree's
branch names in order, reporting the first unresolved name. -/
def firstMissing (branches : List String) : List ReadVar → Option String
  | [] => none
  | v :: vs => if branches.contains v.name then firstMissing branches vs else some v.name

/-- The not-found error reported when a read variable does not resolve. -/
def scannerErr (treeName leaf : String) : String :=
  "rtree: could not create scanner: rtree: Tree \"" ++ treeName ++
    "\" has no branch named \"" ++ leaf ++ "\""

/-- Modelled from the spec: `NewReader(tree, rvars, opts...)` applies the
options (0-based numbering of failures, as the tests pin: the option at
0-based position 1 is reported as `option 1`), validates the entry range
against the tree's entry count, and resolves every read variable against
the tree's branches; any failure aborts construction with no reader
value, so no incomplete bindings are retained and no basket is touched
(only `t.name`, `t.entries` and `t.branches` are consulted). -/
def newReader (t : Tree) (rvars : List ReadVar) (opts : List ReadOption) :
    Except String Reader :=
  let r0 : Reader :=
    { beg := 0, endv := -1, rvars := rvars, closed := false, releaseErr := none }
  match applyOptions 0 r0 opts with
  | .error e => .error e
  | .ok r =>
    match checkRange t.entries r.beg r.endv with
    | .error e => .error e
    | .ok e =>
      match firstMissing t.branches r.rvars with
      | some nm => .error (scannerErr t.name nm)
      | none => .ok { r with endv := e }

/-- The error wrapping a callback failure with the offending entry index. -/
def processErr (entry : Int) (e : String) : String :=
  "rtree: could not process entry " ++ ToString.toString entry ++ ": " ++ e

/-- Modelled from the spec: the scan loop over `n` remaining entries
starting at entry `i`.  It returns the list of entry indices presented to
the callback, in order, and the error outcome: a callback failure stops
the scan immediately and is wrapped with the offending entry index. -/
def readLoop (f : Int → Except String Unit) : Int → Nat → List Int × Option String
  | _, 0 => ([], none)
  | i, n + 1 =>
    match f i with
    | .error e => ([i], some (processErr i e))
    | .ok _ =>
      let rest := readLoop f (i + 1) n
      (i :: rest.1, rest.2)

/-- Modelled from the spec: `Reader.Read(callback)` iterates the entries
of the validated range `[beg, endv)` in ascending order. -/
def Reader.read (r : Reader) (f : Int → Except String Unit) :
    List Int × Option String :=
  readLoop f r.beg (r.endv - r.beg).toNat

/-- Modelled from the spec: `Reader.Close` releases the underlying
resources the first time (reporting their release error, if any) and is a
successful no-op on every later call. -/
def Reader.close (r : Reader) : Reader × Option String :=
  if r.closed then (r, none)
  else ({ r with closed := true }, r.releaseErr)

end Rtree

namespace Rtree

/-- Modelled from the spec: the kinds of member types the reflection
binder distinguishes — supported scalars, strings, fixed-size arrays,
variable-length slices, nested records, plus the unsupported kinds
(platform-width `int`, mappings, pointers). -/
inductive GoType where
  | gbool
  | gint8
  | gint16
  | gint32
  | gint64
  | guint8
  | guint16
  | guint32
  | guint64
  | gfloat32
  | gfloat64
  | gstring
  | gint
  | garray (n : Nat) (elem : GoType)
  | gslice (elem : GoType)
  | gmap (key val : GoType)
  | gptr (elem : GoType)
  | gstruct (fields : List (String × Option String × GoType))

/-- Render a member type the way the runtime type system prints it (used
in binder error messages).  The interior of an anonymous record type is
elided, as no binder error in scope prints one. -/
def GoType.typeName : GoType → String
  | .gbool => "bool"
  | .gint8 => "int8"
  | .gint16 => "int16"
  | .gint32 => "int32"
  | .gint64 => "int64"
  | .guint8 => "uint8"
  | .guint16 => "uint16"
  | .guint32 => "uint32"
  | .guint64 => "uint64"
  | .gfloat32 => "float32"
  | .gfloat64 => "float64"
  | .gstring => "string"
  | .gint => "int"
  | .garray n t => "[" ++ ToString.toString n ++ "]" ++ t.typeName
  | .gslice t => "[]" ++ t.typeName
  | .gmap k v => "map[" ++ k.typeName ++ "]" ++ v.typeName
  | .gptr t => "*" ++ t.typeName
  | .gstruct _ => "struct { ... }"

/-- Number of fixed-array dimensions of a member type. -/
def GoType.arrayDepth : GoType → Nat
  | .garray _ t => t.arrayDepth + 1
  | _ => 0

/-- Modelled from the spec: parse a declarative shape annotation
`base[dim1][dim2]...` into the base leaf name and its dimension list. -/
def parseTag (s : String) : String × List String :=
  match s.splitOn "[" with
  | [] => (s, [])
  | base :: rest => (base, rest.map (fun p => p.dropRight 1))

/-- A member is derived into a binding only when its name is exported
(starts with an upper-case letter). -/
def isExported (nm : String) : Bool :=
  nm.front.isUpper

/-- Modelled from the spec: derive the binding for one named member of a
record, given its optional `groot` shape annotation and its type.
Returns `none` for an unexported (skipped) member; unsupported member
kinds are rejected here — at bind time — with an error naming the member
and its type. -/
def bindField (nm : String) (tagOpt : Option String) (ty : GoType) :
    Except String (Option ReadVar) :=
  if ¬ isExported nm then .ok none
  else
    let rawName := (tagOpt.getD "")
    let rawName := if rawName = "" then nm else rawName
    match ty with
    | .gint | .gptr _ =>
      .error ("rtree: invalid field type for \"" ++ nm ++ "\": " ++ ty.typeName)
    | .gmap k v =>
      .error ("rtree: invalid field type for \"" ++ nm ++ "\": " ++
        (GoType.gmap k v).typeName ++ " (not yet supported)")
    | .gslice _ =>
      match parseTag rawName with
      | (base, []) => .ok (some { name := base, leaf := base })
      | (base, [c]) => .ok (some { name := base, leaf := base, count := c })
      | _ =>
        .error ("rtree: invalid number of slice-dimensions for field \"" ++ nm ++
          "\": \"" ++ rawName ++ "\"")
    | .garray _ _ =>
      let (base, dims) := parseTag rawName
      if dims.length = 0 ∨ dims.length = ty.arrayDepth then
        .ok (some { name := base, leaf := base })
      else
        .error ("rtree: invalid number of array-dimension for field \"" ++ nm ++
          "\": \"" ++ rawName ++ "\"")
    | _ =>
      let (base, dims) := parseTag rawName
      if dims.length = 0 then
        .ok (some { name := base, leaf := base })
      else
        .error ("rtree: invalid field type for \"" ++ nm ++
          "\", or invalid struct-tag \"" ++ rawName ++ "\": " ++ ty.typeName)

/-- Modelled from the spec: derive bindings from the named members of a
record in declaration order; the first unsupported member aborts the
derivation with its bind-time error. -/
def walkFields : List (String × Option String × GoType) → Except String (List ReadVar)
  | [] => .ok []
  | (nm, tag, ty) :: rest =>
    match bindField nm tag ty with
    | .error e => .error e
    | .ok none => walkFields rest
    | .ok (some rv) =>
      match walkFields rest with
      | .error e => .error e
      | .ok rvs => .ok (rv :: rvs)

/-- Modelled from the spec: `ReadVarsFromStruct(ptr)` accepts only a
reference to a record and derives the bindings from its members; a
non-reference or non-record target is rejected immediately.  The
implementation reports binder errors by aborting the host (a panic); the
model returns them as the error component. -/
def readVarsFromStruct : GoType → Except String (List ReadVar)
  | .gptr (.gstruct fields) => walkFields fields
  | .gptr t => .error ("rtree: expect a pointer to struct value, got *" ++ t.typeName)
  | t => .error ("rtree: expect a pointer value, got " ++ t.typeName)

end Rtree

namespace Rtree

/-- The 4-entry test tree with branches `one`, `two`, `three` (the shape
of `testdata/simple.root` used by the package's tests). -/
def tree4 : Tree :=
  { name := "tree", entries := 4, branches := ["one", "two", "three"],
    baskets := [[1], [2], [3], [4]] }

/-- A tree with the same entry count as `tree4` but different name,
branches and basket payloads. -/
def tree4' : Tree :=
  { name := "other", entries := 4, branches := [], baskets := [] }

/-- The read variables of the test scenario. -/
def rvars3 : List ReadVar :=
  [{ name := "one" }, { name := "two" }, { name := "three" }]

end Rtree

namespace Rootio

/-- A `Key` decode behaviour that succeeds with class `TBasket` and
consumes nothing. -/
def keyTBasket : KeyUnmarshal := fun _ d => ((⟨"TBasket"⟩, d), none)

/-- A `Key` decode behaviour that succeeds with class `TH1F`. -/
def keyTH1F : KeyUnmarshal := fun _ d => ((⟨"TH1F"⟩, d), none)

/-- A basket whose header fields all hold the sentinel 9. -/
def basket9 : Basket :=
  { key := ⟨""⟩, Version := 9, Buffersize := 9, Evbuffersize := 9,
    Nevbuf := 9, Last := 9, Flag := 9 }

/-- Wire bytes of a basket header: Version 3, Buffersize 5, Evbuffersize 7,
Nevbuf 2, Last 100, Flag 1. -/
def basketBytes : List Nat :=
  [0, 3] ++ [0, 0, 0, 5] ++ [0, 0, 0, 7] ++ [0, 0, 0, 2] ++ [0, 0, 0, 100] ++ [1]

/-- The decode of `basketBytes`; note `Buffersize` was raised to `Last`. -/
def basketDecoded : Basket :=
  { key := ⟨"TBasket"⟩, Version := 3, Buffersize := 100, Evbuffersize := 7,
    Nevbuf := 2, Last := 100, Flag := 1 }

end Rootio

namespace Rtree

theorem checkRange_ok (entries beg endv : Int) (h0 : 0 ≤ beg)
    (hbe : beg ≤ resolveEnd entries endv) (he : resolveEnd entries endv ≤ entries) :
    checkRange entries beg endv = Except.ok (resolveEnd entries endv) := by
  unfold checkRange
  have h1 : ¬ beg < 0 := by omega
  have h2 : ¬ beg > resolveEnd entries endv := by omega
  have h3 : ¬ beg > entries := by omega
  have h4 : ¬ resolveEnd entries endv > entries := by omega
  simp [h1, h2, h3, h4]

/-- C4: `Reader.Close` is idempotent — for every reader state (whatever
`Read` did before), a second `Close` succeeds as a no-op: it reports no
error and changes nothing. -/
theorem close_twice (r : Reader) :
    (r.close.1.close).2 = none ∧ (r.close.1.close).1 = r.close.1 := by
  unfold Reader.close
  by_cases h : r.closed <;> simp [h]

end Rtree

namespace Rootio

/-- C8: for every input buffer whose embedded `Key` decodes with a class
name other than `"TBasket"`, `Basket.UnmarshalROOT` returns the
class-mismatch error to the caller, and no Basket-specific field
(`Version`, `Buffersize`, `Evbuffersize`, `Nevbuf`, `Last`, `Flag`) is
decoded: the result updates only the embedded key.  The error is
returned, never swallowed. -/
theorem basket_key_class_mismatch (ku : KeyUnmarshal) (b : Basket)
    (data rest : List Nat) (k : Key)
    (hk : ku b.key data = ((k, rest), none))
    (hc : k.className ≠ "TBasket") :
    Basket.unmarshalROOT ku b data =
      ({ b with key := k }, some "rootio.Basket: Key is not a Basket") := by
  unfold Basket.unmarshalROOT
  rw [hk]
  simp [hc]

/-- Witness for C8: a key decoding with class `TH1F` is rejected with the
class-mismatch error and the basket header fields keep their old values. -/
theorem basket_key_class_mismatch_witness :
    Basket.unmarshalROOT keyTH1F basket9 [] =
      ({ basket9 with key := ⟨"TH1F"⟩ }, some "rootio.Basket: Key is not a Basket") :=
  basket_key_class_mismatch keyTH1F basket9 [] [] ⟨"TH1F"⟩ rfl (by decide)

end Rootio

namespace Rtree

theorem readLoop_ok (f : Int → Except String Unit) (hf : ∀ i, f i = Except.ok ()) :
    ∀ (n : Nat) (i : Int),
      readLoop f i n = ((List.range n).map (fun j : Nat => i + (j : Int)), none) := by
  intro n
  induction n with
  | zero => intro i; rfl
  | succ n ih =>
    intro i
    rw [readLoop, hf i]
    simp only [ih (i + 1), List.range_succ_eq_map, List.map_cons, List.map_map]
    refine Prod.ext ?_ rfl
    simp only [Nat.cast_zero, add_zero]
    refine congrArg (List.cons i) ?_
    refine List.map_congr_left ?_
    intro a _
    simp only [Function.comp_apply, Nat.succ_eq_add_one]
    push_cast
    ring

end Rtree

namespace Rtree

/-- C1: for every tree with `N` entries and every valid range —
`0 ≤ beg ≤ end ≤ N`, or `end = -1` (through the last entry) with
`beg ≤ N` — and read variables that all resolve, `NewReader` succeeds,
and `Read` with a callback that never fails presents exactly the entries
`beg, beg+1, ..., end-1` to the callback — `end - beg` invocations, with
entry indices in strictly ascending order — and reports no error.  In
particular a range starting at `N` with `end = -1` yields zero callback
invocations and no error. -/
theorem newReader_valid_range_read (t : Tree) (rvars : List ReadVar) (beg endv : Int)
    (f : Int → Except String Unit)
    (hbeg : 0 ≤ beg)
    (hend : (endv = -1 ∧ beg ≤ t.entries) ∨ (beg ≤ endv ∧ endv ≤ t.entries))
    (hrv : firstMissing t.branches rvars = none)
    (hf : ∀ i, f i = Except.ok ()) :
    newReader t rvars [withRange beg endv] = Except.ok
        { beg := beg, endv := resolveEnd t.entries endv, rvars := rvars,
          closed := false, releaseErr := none } ∧
      Reader.read
          { beg := beg, endv := resolveEnd t.entries endv, rvars := rvars,
            closed := false, releaseErr := none } f =
        ((List.range (resolveEnd t.entries endv - beg).toNat).map
          (fun j : Nat => beg + (j : Int)), none) ∧
      ((List.range (resolveEnd t.entries endv - beg).toNat).map
          (fun j : Nat => beg + (j : Int))).length =
        (resolveEnd t.entries endv - beg).toNat ∧
      List.Pairwise (fun a b : Int => a < b)
        ((List.range (resolveEnd t.entries endv - beg).toNat).map
          (fun j : Nat => beg + (j : Int))) := by
  have hran : beg ≤ resolveEnd t.entries endv ∧ resolveEnd t.entries endv ≤ t.entries := by
    by_cases hm : endv = -1 <;>
      simp only [resolveEnd, hm, if_true, if_false, reduceIte] <;>
      rcases hend with ⟨h1, h2⟩ | ⟨h1, h2⟩ <;> omega
  refine ⟨?_, ?_, ?_, ?_⟩
  · simp only [newReader, applyOptions, withRange]
    rw [checkRange_ok _ _ _ hbeg hran.1 hran.2]
    simp [hrv]
  · rw [Reader.read, readLoop_ok f hf]
  · simp
  · refine List.Pairwise.map _ ?_ (List.pairwise_lt_range _)
    intro a b hab
    omega

/-- Witness for C1: the empty range `WithRange(4, -1)` on the 4-entry
tree — `NewReader` succeeds and the callback is never invoked. -/
theorem newReader_valid_range_read_witness :
    newReader tree4 rvars3 [withRange 4 (-1)] = Except.ok
        { beg := 4, endv := 4, rvars := rvars3, closed := false, releaseErr := none } ∧
      Reader.read
          { beg := 4, endv := 4, rvars := rvars3, closed := false,
            releaseErr := none } (fun _ => Except.ok ()) = ([], none) :=
  have h := newReader_valid_range_read tree4 rvars3 4 (-1) (fun _ => Except.ok ())
    (by decide) (Or.inl ⟨rfl, by decide⟩) rfl (fun _ => rfl)
  ⟨h.1, h.2.1⟩

end Rtree

namespace Rtree

/-- C2: every invalid range — `beg < 0`, `beg` beyond the resolved end,
`beg` beyond the tree entries, or the resolved end beyond the tree
entries — fails `NewReader` with a range error naming the offending bound
and its value; and on any such violation the outcome is the same for any
tree with the same entry count, whatever its name, branches and basket
payloads, and for any read variables: construction fails before baskets
or bindings are touched. -/
theorem newReader_invalid_range (t t' : Tree) (rvars rvars' : List ReadVar)
    (beg endv : Int) (hent : t'.entries = t.entries) :
    (beg < 0 →
      newReader t rvars [withRange beg endv] = Except.error
        (rangeMsg beg (resolveEnd t.entries endv)
          ("start=" ++ ToString.toString beg ++ " < 0"))) ∧
    (0 ≤ beg → resolveEnd t.entries endv < beg →
      newReader t rvars [withRange beg endv] = Except.error
        (rangeMsg beg (resolveEnd t.entries endv)
          ("start=" ++ ToString.toString beg ++ " > end=" ++
            ToString.toString (resolveEnd t.entries endv)))) ∧
    (0 ≤ beg → beg ≤ resolveEnd t.entries endv → t.entries < beg →
      newReader t rvars [withRange beg endv] = Except.error
        (rangeMsg beg (resolveEnd t.entries endv)
          ("start=" ++ ToString.toString beg ++ " > tree-entries=" ++
            ToString.toString t.entries))) ∧
    (0 ≤ beg → beg ≤ resolveEnd t.entries endv → beg ≤ t.entries →
        t.entries < resolveEnd t.entries endv →
      newReader t rvars [withRange beg endv] = Except.error
        (rangeMsg beg (resolveEnd t.entries endv)
          ("end=" ++ ToString.toString (resolveEnd t.entries endv) ++
            " > tree-entries=" ++ ToString.toString t.entries))) ∧
    ((beg < 0 ∨ resolveEnd t.entries endv < beg ∨ t.entries < beg ∨
        t.entries < resolveEnd t.entries endv) →
      newReader t' rvars' [withRange beg endv] =
        newReader t rvars [withRange beg endv]) := by
  refine ⟨?_, ?_, ?_, ?_, ?_⟩
  · intro h
    have hc : checkRange t.entries beg endv = Except.error
        (rangeMsg beg (resolveEnd t.entries endv)
          ("start=" ++ ToString.toString beg ++ " < 0")) := by
      simp only [checkRange]
      rw [if_pos h]
    simp only [newReader, applyOptions, withRange, hc]
  · intro h0 h
    have hc : checkRange t.entries beg endv = Except.error
        (rangeMsg beg (resolveEnd t.entries endv)
          ("start=" ++ ToString.toString beg ++ " > end=" ++
            ToString.toString (resolveEnd t.entries endv))) := by
      simp only [checkRange]
      rw [if_neg (by omega), if_pos (by omega : beg > resolveEnd t.entries endv)]
    simp only [newReader, applyOptions, withRange, hc]
  · intro h0 hbe h
    have hc : checkRange t.entries beg endv = Except.error
        (rangeMsg beg (resolveEnd t.entries endv)
          ("start=" ++ ToString.toString beg ++ " > tree-entries=" ++
            ToString.toString t.entries)) := by
      simp only [checkRange]
      rw [if_neg (by omega), if_neg (by omega : ¬ beg > resolveEnd t.entries endv),
        if_pos (by omega : beg > t.entries)]
    simp only [newReader, applyOptions, withRange, hc]
  · intro h0 hbe hbN h
    have hc : checkRange t.entries beg endv = Except.error
        (rangeMsg beg (resolveEnd t.entries endv)
          ("end=" ++ ToString.toString (resolveEnd t.entries endv) ++
            " > tree-entries=" ++ ToString.toString t.entries)) := by
      simp only [checkRange]
      rw [if_neg (by omega), if_neg (by omega : ¬ beg > resolveEnd t.entries endv),
        if_neg (by omega : ¬ beg > t.entries),
        if_pos (by omega : resolveEnd t.entries endv > t.entries)]
    simp only [newReader, applyOptions, withRange, hc]
  · intro h
    have hm : ∃ m, checkRange t.entries beg endv = Except.error m := by
      simp only [checkRange]
      split_ifs with h1 h2 h3 h4
      · exact ⟨_, rfl⟩
      · exact ⟨_, rfl⟩
      · exact ⟨_, rfl⟩
      · exact ⟨_, rfl⟩
      · exact absurd h (by omega)
    obtain ⟨m, hm⟩ := hm
    have hu : ∀ (u : Tree) (rv : List ReadVar), u.entries = t.entries →
        newReader u rv [withRange beg endv] = Except.error m := by
      intro u rv hue
      simp only [newReader, applyOptions, withRange, hue, hm]
    rw [hu t' rvars' hent, hu t rvars rfl]

/-- Witness for C2: `WithRange(-1, -1)` on the 4-entry tree fails with
the range error naming `start=-1`, and the outcome is the same on a tree
with the same entry count but different branches and baskets. -/
theorem newReader_invalid_range_witness :
    newReader tree4 rvars3 [withRange (-1) (-1)] =
        Except.error "rtree: invalid event reader range [-1, 4) (start=-1 < 0)" ∧
      newReader tree4' [] [withRange (-1) (-1)] =
        newReader tree4 rvars3 [withRange (-1) (-1)] :=
  have h := newReader_invalid_range tree4 tree4' rvars3 [] (-1) (-1) rfl
  ⟨h.1 (by decide), h.2.2.2.2 (Or.inl (by decide))⟩

end Rtree

namespace Rtree

theorem cons_map_range_succ (m : Nat) (i : Int) :
    i :: (List.range m).map (fun j : Nat => (i + 1) + (j : Int)) =
      (List.range (m + 1)).map (fun j : Nat => i + (j : Int)) := by
  rw [List.range_succ_eq_map]
  simp only [List.map_cons, List.map_map, Nat.cast_zero, add_zero]
  refine congrArg (List.cons i) (List.map_congr_left ?_)
  intro a _
  simp only [Function.comp_apply, Nat.succ_eq_add_one]
  push_cast
  ring

theorem readLoop_fail (f : Int → Except String Unit) (k : Int) (e : String)
    (hk : f k = Except.error e) :
    ∀ (n : Nat) (i : Int), i ≤ k → k < i + n →
      (∀ j, i ≤ j → j < k → f j = Except.ok ()) →
      readLoop f i n =
        ((List.range ((k - i).toNat + 1)).map (fun j : Nat => i + (j : Int)),
          some (processErr k e)) := by
  intro n
  induction n with
  | zero => intro i h1 h2 _; exact absurd h2 (by omega)
  | succ n ih =>
    intro i h1 h2 hok
    rcases eq_or_lt_of_le h1 with rfl | hlt
    · rw [readLoop, hk]
      have h0 : (i - i).toNat = 0 := by omega
      simp [h0, List.range_succ]
    · rw [readLoop, hok i (le_refl i) hlt,
        ih (i + 1) (by omega) (by omega) (fun j hj1 hj2 => hok j (by omega) hj2)]
      rw [show (k - i).toNat + 1 = ((k - (i + 1)).toNat + 1) + 1 from by omega]
      exact Prod.ext (cons_map_range_succ _ _) rfl

/-- C3: for every reader and callback, if the callback succeeds on the
scanned entries below `k` and fails at entry `k` of the range (`k` may
be the very first scanned entry), `Reader.Read` presents exactly the
entries `beg, ..., k` to the callback — each scanned entry below `k`
exactly once, in ascending order, with nothing past `k` (iteration
stops immediately; what was already presented stays presented, there is
no rollback) — and returns the callback's failure wrapped with exactly
the entry index `k`. -/
theorem read_callback_failure (r : Reader) (f : Int → Except String Unit)
    (k : Int) (e : String)
    (hbk : r.beg ≤ k) (hke : k < r.endv)
    (hk : f k = Except.error e)
    (hok : ∀ j, r.beg ≤ j → j < k → f j = Except.ok ()) :
    Reader.read r f =
        ((List.range ((k - r.beg).toNat + 1)).map (fun j : Nat => r.beg + (j : Int)),
          some (processErr k e)) ∧
      (∀ i, r.beg ≤ i → i < k → (Reader.read r f).1.count i = 1) ∧
      (Reader.read r f).1.count k = 1 := by
  have hrd : Reader.read r f =
      ((List.range ((k - r.beg).toNat + 1)).map (fun j : Nat => r.beg + (j : Int)),
        some (processErr k e)) := by
    rw [Reader.read]
    exact readLoop_fail f k e hk _ r.beg hbk (by omega) hok
  have hnd : ((List.range ((k - r.beg).toNat + 1)).map
      (fun j : Nat => r.beg + (j : Int))).Nodup := by
    refine List.Nodup.map ?_ (List.nodup_range _)
    intro a b hab
    have hab' : r.beg + (a : Int) = r.beg + (b : Int) := hab
    omega
  refine ⟨hrd, ?_, ?_⟩
  · intro i hi1 hi2
    rw [hrd]
    refine List.count_eq_one_of_mem hnd ?_
    refine List.mem_map.mpr ⟨(i - r.beg).toNat, List.mem_range.mpr (by omega), by omega⟩
  · rw [hrd]
    refine List.count_eq_one_of_mem hnd ?_
    refine List.mem_map.mpr ⟨(k - r.beg).toNat, List.mem_range.mpr (by omega), by omega⟩

end Rtree

namespace Rtree

/-- Witness for C3: on the range `[0, 4)` a callback failing at entry 2
is presented entries 0, 1, 2 — entries 0 and 2 exactly once — and the
returned error names exactly entry 2. -/
theorem read_callback_failure_witness :
    Reader.read { beg := 0, endv := 4, rvars := rvars3, closed := false, releaseErr := none }
        (fun i => if i = 2 then Except.error "EOF" else Except.ok ()) =
        ([0, 1, 2], some "rtree: could not process entry 2: EOF") ∧
      (Reader.read { beg := 0, endv := 4, rvars := rvars3, closed := false, releaseErr := none }
        (fun i => if i = 2 then Except.error "EOF" else Except.ok ())).1.count 0 = 1 ∧
      (Reader.read { beg := 0, endv := 4, rvars := rvars3, closed := false, releaseErr := none }
        (fun i => if i = 2 then Except.error "EOF" else Except.ok ())).1.count 2 = 1 :=
  have h := read_callback_failure
    { beg := 0, endv := 4, rvars := rvars3, closed := false, releaseErr := none }
    (fun i => if i = 2 then Except.error "EOF" else Except.ok ()) 2 "EOF"
    (by decide) (by decide) rfl
    (fun j _ hj => by simp [show j ≠ 2 from by omega])
  ⟨h.1, h.2.1 0 (by decide) (by decide), h.2.2⟩

theorem firstMissing_append (bs : List String) (pre post : List ReadVar)
    (hpre : ∀ w ∈ pre, bs.contains w.name = true) :
    firstMissing bs (pre ++ post) = firstMissing bs post := by
  induction pre with
  | nil => rfl
  | cons w pre ih =>
    rw [List.cons_append, firstMissing,
      if_pos (hpre w (List.mem_cons_self w pre))]
    exact ih (fun w' hw' => hpre w' (List.mem_cons_of_mem _ hw'))

/-- C5: a read variable naming a branch absent from the tree fails
`NewReader` (given a valid range, and with every variable before it
resolving) with the not-found error naming the missing leaf; the
construction returns no reader, so no incomplete bindings are retained and
no iteration can start. -/
theorem newReader_unresolved_rvar (t : Tree) (pre post : List ReadVar) (v : ReadVar)
    (beg endv : Int)
    (hbeg : 0 ≤ beg) (hbe : beg ≤ resolveEnd t.entries endv)
    (he : resolveEnd t.entries endv ≤ t.entries)
    (hpre : ∀ w ∈ pre, t.branches.contains w.name = true)
    (hv : t.branches.contains v.name = false) :
    newReader t (pre ++ v :: post) [withRange beg endv] =
      Except.error (scannerErr t.name v.name) := by
  simp only [newReader, applyOptions, withRange]
  rw [checkRange_ok _ _ _ hbeg hbe he]
  simp only [firstMissing_append t.branches pre (v :: post) hpre, firstMissing, hv]
  rfl

/-- Witness for C5: binding `not-there` on the 4-entry tree fails with
the not-found error of the package's tests. -/
theorem newReader_unresolved_rvar_witness :
    newReader tree4 [{ name := "not-there" }] [withRange 0 (-1)] =
      Except.error
        "rtree: could not create scanner: rtree: Tree \"tree\" has no branch named \"not-there\"" :=
  newReader_unresolved_rvar tree4 [] [] { name := "not-there" } 0 (-1)
    (by decide) (by decide) (by decide) (fun w hw => absurd hw (List.not_mem_nil w)) rfl

end Rtree

namespace Rtree

theorem applyOptions_first_failure (post : List ReadOption) (o : ReadOption) (e : String)
    (ho : ∀ r : Reader, o r = Except.error e) :
    ∀ (pre : List ReadOption),
      (∀ p ∈ pre, ∀ r : Reader, ∃ r', p r = Except.ok r') →
      ∀ (i : Nat) (r : Reader),
        applyOptions i r (pre ++ o :: post) =
          Except.error ("rtree: could not set reader option " ++
            ToString.toString (pre.length + i) ++ ": " ++ e) := by
  intro pre
  induction pre with
  | nil =>
    intro _ i r
    simp [applyOptions, ho r]
  | cons p pre ih =>
    intro hpre i r
    obtain ⟨r', hr'⟩ := hpre p (List.mem_cons_self p pre) r
    rw [List.cons_append, applyOptions, hr']
    dsimp only
    rw [ih (fun q hq => hpre q (List.mem_cons_of_mem _ hq)) (i + 1) r']
    rw [show pre.length + (i + 1) = (p :: pre).length + i from by
      simp [List.length_cons]; omega]

/-- Counterexample to C6 as stated: with the failing option at 1-based
position 2 of the option list (the scenario of the package's own test),
the construction error reports index 1, not the 1-based position 2. -/
theorem newReader_option_index_counterexample :
    newReader tree4 rvars3 [withRange 0 (-1), fun _ => Except.error "EOF"] =
        Except.error "rtree: could not set reader option 1: EOF" ∧
      newReader tree4 rvars3 [withRange 0 (-1), fun _ => Except.error "EOF"] ≠
        Except.error "rtree: could not set reader option 2: EOF" := by
  have h1 : newReader tree4 rvars3 [withRange 0 (-1), fun _ => Except.error "EOF"] =
      Except.error "rtree: could not set reader option 1: EOF" := rfl
  refine ⟨h1, ?_⟩
  rw [h1]
  intro h
  exact absurd (Except.error.inj h) (by decide)

/-- C6 (amended): if the option at 1-based position `i` of the option
list is the first to fail, construction aborts with that failure
surfaced together with the index `i - 1` — the 0-based position of the
failing option. -/
theorem newReader_option_failure_index (t : Tree) (rvars : List ReadVar)
    (pre post : List ReadOption) (o : ReadOption) (e : String)
    (hpre : ∀ p ∈ pre, ∀ r : Reader, ∃ r', p r = Except.ok r')
    (ho : ∀ r : Reader, o r = Except.error e) :
    newReader t rvars (pre ++ o :: post) =
      Except.error ("rtree: could not set reader option " ++
        ToString.toString pre.length ++ ": " ++ e) := by
  simp only [newReader]
  rw [applyOptions_first_failure post o e ho pre hpre 0 _]
  simp

/-- Witness for C6 (amended): the failing option at 1-based position 2
(after a `WithRange` option) is reported as `option 1`, matching the
package's test expectation. -/
theorem newReader_option_failure_index_witness :
    newReader tree4 rvars3 [withRange 0 (-1), fun _ => Except.error "EOF"] =
      Except.error "rtree: could not set reader option 1: EOF" :=
  newReader_option_failure_index tree4 rvars3 [withRange 0 (-1)] []
    (fun _ => Except.error "EOF") "EOF"
    (fun p hp r => by
      rw [List.mem_singleton.mp hp]
      exact ⟨_, rfl⟩)
    (fun _ => rfl)

end Rtree

namespace Rtree

theorem walkFields_append_error (rest : List (String × Option String × GoType))
    (e : String) (hrest : walkFields rest = Except.error e) :
    ∀ (pre : List (String × Option String × GoType)) (rs : List ReadVar),
      walkFields pre = Except.ok rs →
      walkFields (pre ++ rest) = Except.error e := by
  intro pre
  induction pre with
  | nil => intro rs _; simpa using hrest
  | cons fld pre ih =>
    intro rs hpre
    rcases fld with ⟨nm, tag, ty⟩
    rw [List.cons_append, walkFields]
    rw [walkFields] at hpre
    cases hbf : bindField nm tag ty with
    | error e' =>
      rw [hbf] at hpre
      exact absurd hpre (by simp)
    | ok orv =>
      rw [hbf] at hpre
      try dsimp only at hpre
      try dsimp only
      cases orv with
      | none => exact ih _ hpre
      | some rv =>
        cases hwf : walkFields pre with
        | error e' =>
          rw [hwf] at hpre
          exact absurd hpre (by simp)
        | ok rs' =>
          rw [ih rs' hwf]

/-- C7: deriving bindings from a record containing a mapping-typed
member (with every member before it deriving without error) is rejected
at bind time — by the derivation itself, before any read — with an error
naming the offending member and its type. -/
theorem readVarsFromStruct_rejects_map (pre post : List (String × Option String × GoType))
    (nm : String) (tagOpt : Option String) (k v : GoType) (rs : List ReadVar)
    (hnm : isExported nm = true)
    (hpre : walkFields pre = Except.ok rs) :
    readVarsFromStruct (.gptr (.gstruct (pre ++ (nm, tagOpt, .gmap k v) :: post))) =
      Except.error ("rtree: invalid field type for \"" ++ nm ++ "\": " ++
        (GoType.gmap k v).typeName ++ " (not yet supported)") := by
  have hrest : walkFields ((nm, tagOpt, GoType.gmap k v) :: post) =
      Except.error ("rtree: invalid field type for \"" ++ nm ++ "\": " ++
        (GoType.gmap k v).typeName ++ " (not yet supported)") := by
    rw [walkFields]
    have hbf : bindField nm tagOpt (GoType.gmap k v) =
        Except.error ("rtree: invalid field type for \"" ++ nm ++ "\": " ++
          (GoType.gmap k v).typeName ++ " (not yet supported)") := by
      unfold bindField
      rw [if_neg (by simp [hnm])]
    rw [hbf]
  exact walkFields_append_error _ _ hrest pre rs hpre

/-- Witness for C7: a record with a single member `Map` of type
`map[int32]string` is rejected with the bind-time error of the package's
tests. -/
theorem readVarsFromStruct_rejects_map_witness :
    readVarsFromStruct (.gptr (.gstruct [("Map", none, .gmap .gint32 .gstring)])) =
      Except.error "rtree: invalid field type for \"Map\": map[int32]string (not yet supported)" :=
  readVarsFromStruct_rejects_map [] [] "Map" none .gint32 .gstring [] rfl rfl

end Rtree

namespace Rootio

theorem readBytes_exact (pre tail : List Nat) (n : Nat) (h : pre.length = n) :
    Decoder.readBytes { data := pre ++ tail, err := none } n =
      ({ data := tail, err := none }, some pre) := by
  unfold Decoder.readBytes
  dsimp only
  rw [if_pos (by simp only [List.length_append, h]; omega)]
  rw [List.take_left' h, List.drop_left' h]

theorem readU16_exact (pre tail : List Nat) (old : Nat) (h : pre.length = 2) :
    Decoder.readU16 { data := pre ++ tail, err := none } old =
      ({ data := tail, err := none }, beNat pre) := by
  unfold Decoder.readU16
  rw [readBytes_exact pre tail 2 h]

theorem readInt32_exact (pre tail : List Nat) (old : Int) (h : pre.length = 4) :
    Decoder.readInt32 { data := pre ++ tail, err := none } old =
      ({ data := tail, err := none }, toInt32 (beNat pre)) := by
  unfold Decoder.readInt32
  rw [readBytes_exact pre tail 4 h]

/-- C9: after every successful `Basket.UnmarshalROOT` the invariant
`Last ≤ Buffersize` holds on the decoded basket: when the decoded
last-used-byte pointer exceeds the decoded buffer size, `Buffersize` is
silently raised to `Last` instead of the decode failing. -/
theorem basket_last_le_buffersize (ku : KeyUnmarshal) (b b' : Basket)
    (data : List Nat)
    (h : Basket.unmarshalROOT ku b data = (b', none)) :
    b'.Last ≤ b'.Buffersize := by
  unfold Basket.unmarshalROOT at h
  rcases hku : ku b.key data with ⟨⟨k, rest⟩, err⟩
  rw [hku] at h
  cases err with
  | some e => simp at h
  | none =>
    dsimp only at h
    by_cases hc : k.className = "TBasket"
    · rw [if_neg (by simp [hc])] at h
      split at h
      · simp at h
      · rw [Prod.mk.injEq] at h
        obtain ⟨h1, _⟩ := h
        subst h1
        split
        · simp
        · next hcnd =>
            dsimp only
            omega
    · rw [if_pos (by simp [hc])] at h
      simp at h

/-- Witness for C9: decoding `basketBytes` (declared buffer size 5, last
used byte 100) succeeds, and the invariant holds because the buffer size
was raised to 100. -/
theorem basket_last_le_buffersize_witness :
    Basket.unmarshalROOT keyTBasket basket9 basketBytes = (basketDecoded, none) ∧
      basketDecoded.Last ≤ basketDecoded.Buffersize :=
  ⟨rfl, basket_last_le_buffersize keyTBasket basket9 basketDecoded basketBytes rfl⟩

/-- C10: when the wire value of `Evbuffersize` is negative,
`Basket.UnmarshalROOT` returns an error reporting that value and zeroes
the basket's `Evbuffersize`, while the already-decoded `Version` and
`Buffersize` keep their newly decoded wire values and the remaining
fields keep their old values — the basket is not left unchanged on this
error path. -/
theorem basket_negative_evbuffersize (ku : KeyUnmarshal) (b : Basket)
    (data : List Nat) (k : Key) (b2 b4a b4b tail : List Nat)
    (hk : ku b.key data = ((k, b2 ++ (b4a ++ (b4b ++ tail))), none))
    (hc : k.className = "TBasket")
    (h2 : b2.length = 2) (h4a : b4a.length = 4) (h4b : b4b.length = 4)
    (hneg : toInt32 (beNat b4b) < 0) :
    Basket.unmarshalROOT ku b data =
      ({ b with
          key := k
          Version := beNat b2
          Buffersize := toInt32 (beNat b4a)
          Evbuffersize := 0 },
        some ("rootio.Basket: incorrect Evbuffersize [" ++
          ToString.toString (toInt32 (beNat b4b)) ++ "]")) := by
  unfold Basket.unmarshalROOT
  rw [hk]
  dsimp only
  rw [if_neg (by simp [hc])]
  rw [readU16_exact b2 (b4a ++ (b4b ++ tail)) b.Version h2]
  dsimp only
  rw [readInt32_exact b4a (b4b ++ tail) b.Buffersize h4a]
  dsimp only
  rw [readInt32_exact b4b tail b.Evbuffersize h4b]
  dsimp only
  rw [if_pos hneg]

/-- Witness for C10: wire bytes with `Evbuffersize = -5` — the decode
fails reporting `-5`, `Version` and `Buffersize` hold the newly decoded
3 and 5, `Evbuffersize` is zeroed, and `Nevbuf`, `Last`, `Flag` keep the
receiver's old sentinel values. -/
theorem basket_negative_evbuffersize_witness :
    Basket.unmarshalROOT keyTBasket basket9
        ([0, 3] ++ ([0, 0, 0, 5] ++ ([255, 255, 255, 251] ++ []))) =
      ({ basket9 with
          key := ⟨"TBasket"⟩
          Version := 3
          Buffersize := 5
          Evbuffersize := 0 },
        some "rootio.Basket: incorrect Evbuffersize [-5]") :=
  basket_negative_evbuffersize keyTBasket basket9
    ([0, 3] ++ ([0, 0, 0, 5] ++ ([255, 255, 255, 251] ++ []))) ⟨"TBasket"⟩
    [0, 3] [0, 0, 0, 5] [255, 255, 255, 251] [] rfl rfl rfl rfl rfl (by decide)

end Rootio
